import Mathlib

/-
Verification of the frame-extraction engine of the glimpse repository
(src/composables/useHighPerformanceScreenshots.ts), as a shallow embedding.

Modelling conventions:
  * JavaScript numbers that carry timestamps, durations and timescales are
    modelled as rationals (Rat); the algorithmic structure of the code
    (nearest-sample search, tolerance matching, flush scheduling) does not
    depend on floating-point rounding.
  * The result object keyed by the number results[event.timestamp_seconds]
    is modelled as an association list over Rat.
  * The asynchronous orchestrator (promise resolution, decoder output
    callback, FileReader onloadend completions, the 30 s safety timeout) is
    modelled as a step function on an explicit state, driven by an event
    trace; each handler is translated from the corresponding callback.
  * The VideoDecoder is a black box; its observable state machine
    (unconfigured / configured / closed) and the calls issued to it
    (configure, decode, flush, close) are modelled explicitly.

The file is laid out as the full data model and operations first, then
all theorems.
-/

namespace Glimpse

/-- One caller-requested extraction point, interface VideoEvent of the
source: timestamp in seconds plus opaque payload that is round-tripped. -/
structure VideoEvent where
  timestamp_seconds : Rat
  title : String
  description : String
  insights : Option String := none
  screenshot : Option String := none
  deriving DecidableEq, Repr

/-- Default VideoEvent, used with List.getD. -/
def dfltEvent : VideoEvent :=
  { timestamp_seconds := 0, title := "", description := "" }

/-- One compressed access unit from the mp4box sample table.  The byte
payload (sample.data) is opaque to every property proved here and is
omitted. -/
structure Sample where
  cts : Rat
  duration : Rat
  timescale : Rat
  is_sync : Bool
  deriving DecidableEq, Repr

/-- Default Sample, used with List.getD.  The planner and scheduler only
index inside the bounds established by the nearest-sample search, so the
default is never semantically reached from planned input. -/
def dfltSample : Sample :=
  { cts := 0, duration := 0, timescale := 1, is_sync := false }

/-- Observable state of the black-box VideoDecoder. -/
inductive DecoderState where
  | unconfigured
  | configured
  | closed
  deriving DecidableEq, Repr

/-- Settlement state of the promise returned by extractScreenshots. -/
inductive Outcome where
  | pending
  | resolved (events : List VideoEvent)
  | rejected (msg : String)
  deriving DecidableEq, Repr

/-- The mutable state closed over by the extractScreenshots promise body:
the finished flag, the results object, the pending-frame countdown, the
decoder handle, and the settlement of the returned promise.  closeCount
counts calls to videoDecoder.close() so that exactly-once closing is
statable.  pendingEncodes holds convertToBlob / FileReader completions
that have been started but whose onloadend has not run yet. -/
structure OrchState where
  isFinished : Bool
  readyFired : Bool
  fileFullyRead : Bool
  hasCanvas : Bool
  decoder : Option DecoderState
  closeCount : Nat
  results : List (Rat × String)
  pendingFrames : Int
  pendingEncodes : List (Rat × String)
  outcome : Outcome
  deriving DecidableEq, Repr

/-- Lookup in the results object: results[key], none when the property is
absent (undefined in the source). -/
def lookupResult (results : List (Rat × String)) (key : Rat) : Option String :=
  (results.find? fun p => p.1 == key).map fun p => p.2

/-- The mapping-back step of finish: events.map(e => ({...e, screenshot:
results[e.timestamp_seconds]})). -/
def finalizedEvents (events : List VideoEvent) (results : List (Rat × String)) :
    List VideoEvent :=
  events.map fun e =>
    { e with screenshot := lookupResult results e.timestamp_seconds }

/-- Promise settlement: a resolve call only takes effect while the promise
is still pending (platform semantics of Promise). -/
def settleResolve (events : List VideoEvent) (s : OrchState) : OrchState :=
  match s.outcome with
  | Outcome.pending => { s with outcome := Outcome.resolved events }
  | _ => s

/-- The cleanup step of finish: if (videoDecoder && videoDecoder.state !==
closed) videoDecoder.close(). -/
def closeIfOpen (s : OrchState) : OrchState :=
  match s.decoder with
  | some DecoderState.closed => s
  | some _ =>
      { s with decoder := some DecoderState.closed, closeCount := s.closeCount + 1 }
  | none => s

/-- The finish function of the source: idempotence guard on isFinished,
decoder cleanup, mapping results back onto the input events, and resolving
the promise with the finalized list. -/
def finish (events : List VideoEvent) (s : OrchState) : OrchState :=
  if s.isFinished then s
  else
    settleResolve (finalizedEvents events s.results)
      (closeIfOpen { s with isFinished := true })

/-- The 30 s safety timeout of the source: setTimeout(..., 30000). -/
def timeoutMs : Nat := 30000

/-- Rendering a decoded frame into a jpeg data URI (drawImage followed by
convertToBlob at quality 0.8 and FileReader.readAsDataURL).  The encoder
is a black box; the model only needs that the produced string is a
function of the frame that was drawn. -/
def renderFrame (frameId : Nat) : String :=
  "data:image/jpeg;base64,frame-" ++ toString frameId

/-- Asynchronous events that drive the per-extraction orchestrator:
a FileReader chunk append (isLast marks the final chunk of the file), the
30 s safety timeout, delivery of one decoded frame by the VideoDecoder
output callback (timestamp in microseconds, plus an identifier of the
decoded pixel data), and completion of one previously started image
encode (the FileReader onloadend callback), addressed by its position in
the pending-encode queue. -/
inductive Event where
  | appendChunk (isLast : Bool)
  | timeout
  | frameOutput (tsUs : Rat) (frameId : Nat)
  | encodeDone (i : Nat)
  deriving DecidableEq, Repr

/-- The body of the VideoDecoder output callback, minus the early-return
guard: for each event within 100 ms of the frame time (strict <), if no
result is recorded for its timestamp key and the shared canvas exists, an
image encode of this frame is started for that key.  The results object is
only written later, in onloadend, so every event is checked against the
same results snapshot. -/
def spawnJobs (events : List VideoEvent) (results : List (Rat × String))
    (hasCanvas : Bool) (tsUs : Rat) (frameId : Nat) : List (Rat × String) :=
  events.filterMap fun e =>
    if |tsUs / 1000000 - e.timestamp_seconds| < 1 / 10 then
      if (lookupResult results e.timestamp_seconds).isNone && hasCanvas then
        some (e.timestamp_seconds, renderFrame frameId)
      else none
    else none

/-- One orchestrator transition per asynchronous callback, translated
from the source:
  * appendChunk: the FileReader onload path with no ready event (the
    parser fed; on the last chunk fileFullyRead is set; processAllSamples
    is only invoked when readyFired, which the decode-scheduler model
    covers separately);
  * timeout: the setTimeout callback, which calls finish unless already
    finished;
  * frameOutput: the VideoDecoder output callback, which closes and
    discards the frame when isFinished and otherwise starts an image
    encode for every matching unsatisfied target;
  * encodeDone: the FileReader onloadend callback of one started encode,
    which records the result only if the key is still unrecorded,
    decrements pendingFrames, and calls finish when the countdown reaches
    zero.  Note that this handler has no isFinished guard in the source.
-/
def step (events : List VideoEvent) (s : OrchState) : Event → OrchState
  | Event.appendChunk isLast =>
      { s with fileFullyRead := s.fileFullyRead || isLast }
  | Event.timeout => if s.isFinished then s else finish events s
  | Event.frameOutput tsUs frameId =>
      if s.isFinished then s
      else
        { s with pendingEncodes :=
            s.pendingEncodes ++ spawnJobs events s.results s.hasCanvas tsUs frameId }
  | Event.encodeDone i =>
      match s.pendingEncodes[i]? with
      | none => s
      | some (key, img) =>
          let s1 := { s with pendingEncodes := s.pendingEncodes.eraseIdx i }
          if (lookupResult s1.results key).isNone then
            let s2 := { s1 with results := (key, img) :: s1.results, pendingFrames := s1.pendingFrames - 1 }
            if s2.pendingFrames ≤ 0 then finish events s2 else s2
          else s1

/-- Run the orchestrator over a trace of asynchronous events. -/
def runTrace (events : List VideoEvent) (s : OrchState) (trace : List Event) :
    OrchState :=
  trace.foldl (step events) s

/-- The state set up at the top of the extractScreenshots promise body. -/
def initialState (events : List VideoEvent) : OrchState :=
  { isFinished := false, readyFired := false, fileFullyRead := false,
    hasCanvas := false, decoder := none, closeCount := 0, results := [],
    pendingFrames := (events.length : Int), pendingEncodes := [],
    outcome := Outcome.pending }

/-- Concrete orchestrator state with an open (configured) decoder and one
recorded result, used to witness C7. -/
def stC7 : OrchState :=
  { isFinished := false, readyFired := true, fileFullyRead := true,
    hasCanvas := true, decoder := some DecoderState.configured,
    closeCount := 0, results := [(1, "img1")], pendingFrames := 0,
    pendingEncodes := [], outcome := Outcome.pending }

/-- Concrete input witnessing C1: two targets, one satisfied and one
absent. -/
def evC1 : List VideoEvent :=
  [{ timestamp_seconds := 1, title := "a", description := "" },
   { timestamp_seconds := 2, title := "b", description := "" }]

/-- Concrete orchestrator state witnessing C1. -/
def stC1 : OrchState :=
  { isFinished := false, readyFired := true, fileFullyRead := true,
    hasCanvas := true, decoder := some DecoderState.configured,
    closeCount := 0, results := [(1, "img1")], pendingFrames := 1,
    pendingEncodes := [], outcome := Outcome.pending }

/-- Concrete finished state with a pending late encode for an unrecorded
key, used by the C10 counterexample. -/
def stC10 : OrchState :=
  { isFinished := true, readyFired := true, fileFullyRead := true,
    hasCanvas := true, decoder := some DecoderState.closed, closeCount := 1,
    results := [], pendingFrames := 1, pendingEncodes := [(1, "img")],
    outcome := Outcome.resolved [] }

/-- Concrete finished state with a recorded result and a pending encode
for the same key, used by the C10 witness. -/
def stC10w : OrchState :=
  { isFinished := true, readyFired := true, fileFullyRead := true,
    hasCanvas := true, decoder := some DecoderState.closed, closeCount := 1,
    results := [(1, "early")], pendingFrames := 0,
    pendingEncodes := [(1, "late")], outcome := Outcome.resolved [] }

/-- A planned contiguous decode run, structure built in processAllSamples:
start sample index, end sample index and owning event index.  The source
field named end is a Lean keyword and is rendered endIdx. -/
structure GOPRange where
  start : Nat
  endIdx : Nat
  eventIndex : Nat
  deriving DecidableEq, Repr

/-- Default GOPRange, used with List.getD. -/
def dfltRange : GOPRange := { start := 0, endIdx := 0, eventIndex := 0 }

/-- One EncodedVideoChunk as constructed in the decode loop: type key or
delta from is_sync, timestamp and duration converted from track-timescale
units to microseconds; sampleIdx records which sample the chunk came
from. -/
structure Chunk where
  isKey : Bool
  timestamp : Rat
  duration : Rat
  sampleIdx : Nat
  deriving DecidableEq, Repr

/-- Chunk construction of the decode loop: type from is_sync, timestamp
(sample.cts * 1e6) / sample.timescale, duration likewise. -/
def mkChunk (samples : List Sample) (idx : Nat) : Chunk :=
  let s := samples.getD idx dfltSample
  { isKey := s.is_sync, timestamp := s.cts * 1000000 / s.timescale,
    duration := s.duration * 1000000 / s.timescale, sampleIdx := idx }

/-- The inner decode loop over the sample indices of one GOP range.  A
decode call is only issued while the decoder is configured; throwAt is
the fault model for a synchronous VideoDecoder.decode throw at a given
sample index, which aborts the loop (the chunks before it were already
fed) and transfers to the catch block (second component true). -/
def feedSamples (samples : List Sample) (throwAt : Nat → Bool)
    (configured : Bool) : List Nat → List Chunk × Bool
  | [] => ([], false)
  | i :: rest =>
      if configured then
        if throwAt i then ([], true)
        else
          let r := feedSamples samples throwAt configured rest
          (mkChunk samples i :: r.1, r.2)
      else ([], false)

/-- Observable record of processing one GOPRange in the scheduler loop of
processAllSamples: whether the range was skipped by the keyframe
validation, the computed needsFlush, whether a flush was actually issued
before the decodes (preFlush), the chunks fed, whether the range errored,
whether the closing flush after the range ran (postFlush), and whether
the catch-block recovery flush ran (recoverFlush). -/
structure RangeStep where
  range : GOPRange
  skipped : Bool
  needsFlush : Bool
  preFlush : Bool
  fed : List Chunk
  errored : Bool
  postFlush : Bool
  recoverFlush : Bool
  deriving DecidableEq, Repr

/-- Default RangeStep, used with List.getD. -/
def dfltStep : RangeStep :=
  { range := dfltRange, skipped := true, needsFlush := false,
    preFlush := false, fed := [], errored := false, postFlush := false,
    recoverFlush := false }

/-- The needsFlush test of the scheduler loop: flush before a range when
it is the first processed range (lastProcessedIndex === -1) or when its
start is not exactly one past the previous processed end (range.start >
lastProcessedIndex + 1, a discontinuity). -/
def needsFlushFor (start : Nat) (lastProcessedIndex : Int) : Bool :=
  decide (lastProcessedIndex = -1) ||
    decide ((start : Int) > lastProcessedIndex + 1)

/-- The nextRangeHasGap test of the closing flush: the immediately next
planned range (even one that keyframe validation will later skip) starts
strictly past end + 1.  With no next range this is false and the
isLastRange disjunct takes over. -/
def nextRangeHasGapFor (endIdx : Nat) : List GOPRange → Bool
  | [] => false
  | nr :: _ => decide ((nr.start : Int) > (endIdx : Int) + 1)

/-- The scheduler loop of processAllSamples over the sorted GOP ranges,
threading lastProcessedIndex (initially -1):
  * keyframe validation: a range whose first sample is not a sync sample
    is skipped (continue) without touching lastProcessedIndex;
  * needsFlush := lastProcessedIndex === -1 || range.start >
    lastProcessedIndex + 1, and the pre-decode flush runs when needsFlush
    and the decoder is configured;
  * the samples start..end inclusive are fed; on a decode throw the catch
    block runs a recovery flush (when configured) and resets
    lastProcessedIndex to -1 so the next range is treated as
    discontinuous;
  * otherwise lastProcessedIndex becomes range.end and a closing flush
    runs after the last range or before a gap to the next range.
The isFinished early exit of the source is not modelled: the loop is
analyzed for a run in which no concurrent finish occurs. -/
def runRanges (samples : List Sample) (throwAt : Nat → Bool)
    (configured : Bool) : List GOPRange → Int → List RangeStep
  | [], _ => []
  | r :: rest, lastProcessedIndex =>
      if (samples.getD r.start dfltSample).is_sync = false then
        { range := r, skipped := true, needsFlush := false, preFlush := false,
          fed := [], errored := false, postFlush := false,
          recoverFlush := false } ::
          runRanges samples throwAt configured rest lastProcessedIndex
      else
        let needsFlush : Bool := needsFlushFor r.start lastProcessedIndex
        let res := feedSamples samples throwAt configured
          (List.range' r.start (r.endIdx + 1 - r.start))
        if res.2 then
          { range := r, skipped := false, needsFlush := needsFlush,
            preFlush := needsFlush && configured, fed := res.1,
            errored := true, postFlush := false,
            recoverFlush := configured } ::
            runRanges samples throwAt configured rest (-1)
        else
          let isLastRange : Bool := rest.isEmpty
          { range := r, skipped := false, needsFlush := needsFlush,
            preFlush := needsFlush && configured, fed := res.1,
            errored := false,
            postFlush := (isLastRange || nextRangeHasGapFor r.endIdx rest) &&
              configured,
            recoverFlush := false } ::
            runRanges samples throwAt configured rest (r.endIdx : Int)

/-- The nearest-sample search loop of processAllSamples: walks the sample
list in scan order carrying the running best (index, minDiff); a sample
strictly improving the minimum replaces the champion, so ties keep the
first index found.  The initial minDiff of Infinity is modelled by the
none champion, which any first sample beats.  The list argument is the
suffix of the sample table from index i. -/
def findNearestGo (target : Rat) : List Sample → Nat → Option (Nat × Rat) →
    Option (Nat × Rat)
  | [], _, best => best
  | s :: rest, i, best =>
      let diff := |s.cts - target|
      findNearestGo target rest (i + 1)
        (match best with
         | none => some (i, diff)
         | some (bi, bd) =>
             if diff < bd then some (i, diff) else some (bi, bd))

/-- Index of the sample whose cts has minimum absolute distance to the
target time, ties broken by first found in scan order; none exactly when
the sample table is empty (nearestSampleIndex === -1 in the source). -/
def findNearest (samples : List Sample) (target : Rat) : Option Nat :=
  (findNearestGo target samples 0 none).map Prod.fst

/-- The backward keyframe walk: while (decodeStartIndex >= 0 &&
!samples[decodeStartIndex].is_sync) decodeStartIndex--; none models the
walk running past index 0 (decodeStartIndex < 0). -/
def findKeyIndex (samples : List Sample) : Nat → Option Nat
  | 0 => if (samples.getD 0 dfltSample).is_sync then some 0 else none
  | i + 1 =>
      if (samples.getD (i + 1) dfltSample).is_sync then some (i + 1)
      else findKeyIndex samples i

/-- Planning one event: convert the timestamp to track-timescale units,
find the nearest sample, walk back to the preceding keyframe; none when
the table is empty or no preceding keyframe exists, in which case no
GOPRange is pushed for the event. -/
def planEvent (samples : List Sample) (timescale : Rat) (eventIdx : Nat)
    (e : VideoEvent) : Option GOPRange :=
  let targetTime := e.timestamp_seconds * timescale
  match findNearest samples targetTime with
  | none => none
  | some nearestSampleIndex =>
      match findKeyIndex samples nearestSampleIndex with
      | none => none
      | some decodeStartIndex =>
          some { start := decodeStartIndex, endIdx := nearestSampleIndex,
                 eventIndex := eventIdx }

/-- The GOP planning pass of processAllSamples: one optional range per
event in event order, then gopRanges.sort((a, b) => a.start - b.start).
The sort is modelled by a stable insertion sort on the same key. -/
def planGopRanges (samples : List Sample) (timescale : Rat)
    (events : List VideoEvent) : List GOPRange :=
  (events.enum.filterMap fun p => planEvent samples timescale p.1 p.2).insertionSort
    fun a b => a.start ≤ b.start

/-- One entry of track.mdia.minf.stbl.stsd.entries: the optional avcC and
hvcC configuration boxes, each held as the byte list produced by
box.write (4 size bytes, 4 type bytes, then the configuration record). -/
structure StsdEntry where
  avcC : Option (List Nat)
  hvcC : Option (List Nat)
  deriving DecidableEq, Repr

/-- The sample-description box of a track. -/
structure Stsd where
  entries : List StsdEntry
  deriving DecidableEq, Repr

/-- The full track structure looked up from mp4boxfile.moov.traks; the
optional-chain track.mdia?.minf?.stbl?.stsd is collapsed into a single
optional stsd. -/
structure FullTrack where
  stsd : Option Stsd
  deriving DecidableEq, Repr

/-- The toDesc helper: take entries[0]; if it has an avcC (else hvcC)
box, serialize it and strip the 8 header bytes (4 size + 4 type), keeping
the configuration record; absent when no matching box exists, when the
optional chain breaks, or when the stripped record is empty. -/
def toDesc (track : Option FullTrack) : Option (List Nat) :=
  match track with
  | none => none
  | some t =>
      match t.stsd with
      | none => none
      | some stsd =>
          match stsd.entries[0]? with
          | none => none
          | some entry =>
              match entry.avcC with
              | some box =>
                  let desc := box.drop 8
                  if desc.length = 0 then none else some desc
              | none =>
                  match entry.hvcC with
                  | some box =>
                      let desc := box.drop 8
                      if desc.length = 0 then none else some desc
                  | none => none

/-- The codec families for which onReady treats an absent description as
fatal: videoTrack.codec.startsWith avc1 / hvc1 / hev1. -/
def requiresDescription (codec : String) : Bool :=
  codec.startsWith "avc1" || codec.startsWith "hvc1" || codec.startsWith "hev1"

/-- The description guard at the top of onReady, before the VideoDecoder
is created or configured: if no description was extracted and the codec
family mandates one, the whole extraction is rejected with a
configuration error; otherwise initialization proceeds. -/
def descCheck (codec : String) (track : Option FullTrack) : Except String Unit :=
  if (toDesc track).isNone && requiresDescription codec then
    Except.error ("Failed to extract decoder description for codec " ++ codec)
  else Except.ok ()

/-- Concrete target at 1.0 s witnessing C6. -/
def ev6a : VideoEvent :=
  { timestamp_seconds := 1, title := "a", description := "" }

/-- Concrete target at 1.02 s witnessing C6. -/
def ev6b : VideoEvent :=
  { timestamp_seconds := 102 / 100, title := "b", description := "" }

/-- Concrete targets witnessing C6: 1.0 s and 1.02 s, both within 100 ms
of a frame at 1.0 s. -/
def evC6 : List VideoEvent := [ev6a, ev6b]

/-- Concrete state witnessing the completion half of C6: one started
encode for key 1 whose result is not yet recorded. -/
def stC6 : OrchState :=
  { isFinished := false, readyFired := true, fileFullyRead := true,
    hasCanvas := true, decoder := some DecoderState.configured,
    closeCount := 0, results := [], pendingFrames := 2,
    pendingEncodes := [(1, renderFrame 5)], outcome := Outcome.pending }

/-- Concrete sample table for the C2 counterexample: one keyframe at
index 0 followed by three delta samples. -/
def samplesC2 : List Sample :=
  [{ cts := 0, duration := 1, timescale := 1000, is_sync := true },
   { cts := 1, duration := 1, timescale := 1000, is_sync := false },
   { cts := 2, duration := 1, timescale := 1000, is_sync := false },
   { cts := 3, duration := 1, timescale := 1000, is_sync := false }]

/-- Two overlapping planned ranges in the same GOP (two targets sharing
the keyframe at index 0), as the planner produces for two nearby
targets: adjacency is neither a continuation nor a gap. -/
def rangesC2 : List GOPRange :=
  [{ start := 0, endIdx := 2, eventIndex := 0 },
   { start := 0, endIdx := 3, eventIndex := 1 }]

/-- Concrete ranges witnessing the amended C2: a continuation pair
followed by a gap pair. -/
def rangesC2w : List GOPRange :=
  [{ start := 0, endIdx := 1, eventIndex := 0 },
   { start := 2, endIdx := 3, eventIndex := 1 }]

/-- Sample table for the C2 witness: keyframes at indices 0 and 2. -/
def samplesC2w : List Sample :=
  [{ cts := 0, duration := 1, timescale := 1000, is_sync := true },
   { cts := 1, duration := 1, timescale := 1000, is_sync := false },
   { cts := 2, duration := 1, timescale := 1000, is_sync := true },
   { cts := 3, duration := 1, timescale := 1000, is_sync := false }]

/-- Sample table for the C9 witness: keyframes at indices 0 and 3. -/
def samplesC9 : List Sample :=
  [{ cts := 0, duration := 1, timescale := 1000, is_sync := true },
   { cts := 1, duration := 1, timescale := 1000, is_sync := false },
   { cts := 2, duration := 1, timescale := 1000, is_sync := false },
   { cts := 3, duration := 1, timescale := 1000, is_sync := true },
   { cts := 4, duration := 1, timescale := 1000, is_sync := false }]

/-- Two planned ranges for the C9 witness; the first will hit a decode
throw. -/
def rangesC9 : List GOPRange :=
  [{ start := 0, endIdx := 2, eventIndex := 0 },
   { start := 3, endIdx := 4, eventIndex := 1 }]

/-- Fault model for the C9 witness: decoding sample 1 throws. -/
def throwAtC9 : Nat → Bool := fun i => i == 1

/-- Sample table for the C3 witness: no sync sample anywhere (targets
before the first keyframe of a stream whose indexed fragment has none). -/
def samplesC3 : List Sample :=
  [{ cts := 0, duration := 1000, timescale := 1000, is_sync := false },
   { cts := 1000, duration := 1000, timescale := 1000, is_sync := false }]

/-- Single target at 1 s for the C3 witness. -/
def evC3 : List VideoEvent :=
  [{ timestamp_seconds := 1, title := "goal", description := "" }]

/-- Sample table for the C3 counterexample: a non-sync sample at cts 0
and a sync sample at cts 100, timescale 1000 (so 0.1 s). -/
def samplesC3x : List Sample :=
  [{ cts := 0, duration := 100, timescale := 1000, is_sync := false },
   { cts := 100, duration := 100, timescale := 1000, is_sync := true }]

/-- Unplannable target at 0.04 s for the C3 counterexample: its nearest
sample is index 0 and no sync sample precedes it. -/
def ev3a : VideoEvent :=
  { timestamp_seconds := 4 / 100, title := "early", description := "" }

/-- Plannable target at 0.1 s for the C3 counterexample; decoding its
range emits a frame at 0.1 s, within 100 ms of the 0.04 s target. -/
def ev3b : VideoEvent :=
  { timestamp_seconds := 1 / 10, title := "later", description := "" }

/-- Target list for the C3 counterexample. -/
def evC3x : List VideoEvent := [ev3a, ev3b]

/-- Post-ready orchestrator state for the C3 counterexample run: decoder
configured, canvas created, two pending targets, nothing recorded. -/
def stC3x : OrchState :=
  { isFinished := false, readyFired := true, fileFullyRead := true,
    hasCanvas := true, decoder := some DecoderState.configured,
    closeCount := 0, results := [], pendingFrames := 2,
    pendingEncodes := [], outcome := Outcome.pending }

/-- Sample table for the C4 witness: keyframe at index 0, deltas after,
timescale 1000. -/
def samplesC4 : List Sample :=
  [{ cts := 0, duration := 1000, timescale := 1000, is_sync := true },
   { cts := 1000, duration := 1000, timescale := 1000, is_sync := false },
   { cts := 2000, duration := 1000, timescale := 1000, is_sync := false }]

/-- Single target at 2 s for the C4 witness; its nearest sample is index
2 and the preceding keyframe is index 0. -/
def evC4 : List VideoEvent :=
  [{ timestamp_seconds := 2, title := "scene", description := "" }]

/-- The planned range the C4 witness exhibits. -/
def rC4 : GOPRange := { start := 0, endIdx := 2, eventIndex := 0 }

/-- Track structure for the C5 witness: the avcC box serializes to
exactly its 8 header bytes, so the stripped configuration record is
empty and toDesc is absent. -/
def trackC5 : Option FullTrack :=
  some { stsd := some { entries :=
    [{ avcC := some [0, 0, 0, 8, 97, 118, 99, 67], hvcC := none }] } }

/-
Theorems.
-/

theorem settleResolve_isFinished (events : List VideoEvent) (s : OrchState) :
    (settleResolve events s).isFinished = s.isFinished := by
  unfold settleResolve; split <;> rfl

theorem settleResolve_closeCount (events : List VideoEvent) (s : OrchState) :
    (settleResolve events s).closeCount = s.closeCount := by
  unfold settleResolve; split <;> rfl

theorem settleResolve_decoder (events : List VideoEvent) (s : OrchState) :
    (settleResolve events s).decoder = s.decoder := by
  unfold settleResolve; split <;> rfl

theorem settleResolve_results (events : List VideoEvent) (s : OrchState) :
    (settleResolve events s).results = s.results := by
  unfold settleResolve; split <;> rfl

theorem closeIfOpen_outcome (s : OrchState) :
    (closeIfOpen s).outcome = s.outcome := by
  unfold closeIfOpen; split <;> rfl

theorem closeIfOpen_isFinished (s : OrchState) :
    (closeIfOpen s).isFinished = s.isFinished := by
  unfold closeIfOpen; split <;> rfl

theorem closeIfOpen_results (s : OrchState) :
    (closeIfOpen s).results = s.results := by
  unfold closeIfOpen; split <;> rfl

theorem closeIfOpen_decoder_closed (s : OrchState) (d : DecoderState)
    (h : s.decoder = some d) :
    (closeIfOpen s).decoder = some DecoderState.closed := by
  unfold closeIfOpen
  rw [h]
  cases d <;> simp [h]

theorem finish_isFinished (events : List VideoEvent) (s : OrchState) :
    (finish events s).isFinished = true := by
  unfold finish
  split
  · next h => exact h
  · rw [settleResolve_isFinished, closeIfOpen_isFinished]

theorem finish_finished_noop (events : List VideoEvent) (s : OrchState)
    (h : s.isFinished = true) : finish events s = s := by
  unfold finish; rw [h]; rfl

/-- Claim C7: finalization is idempotent and exactly-once.  A second call
to finish is a no-op (so the resolved outcome is unchanged), and the
decoder is closed exactly once on the first call, and only if it is still
open at that point; a decoder that is already closed, or never created, is
not closed again. -/
theorem C7_finish_idempotent (events : List VideoEvent) (s : OrchState) :
    finish events (finish events s) = finish events s ∧
    (finish events (finish events s)).outcome = (finish events s).outcome ∧
    (s.isFinished = false →
      (∀ d, s.decoder = some d → d ≠ DecoderState.closed →
          (finish events s).closeCount = s.closeCount + 1 ∧
          (finish events s).decoder = some DecoderState.closed) ∧
      (s.decoder = some DecoderState.closed →
          (finish events s).closeCount = s.closeCount) ∧
      (s.decoder = none → (finish events s).closeCount = s.closeCount)) := by
  have hfin : (finish events s).isFinished = true := finish_isFinished events s
  refine ⟨finish_finished_noop events _ hfin, ?_, ?_⟩
  · rw [finish_finished_noop events _ hfin]
  · intro hs
    refine ⟨?_, ?_, ?_⟩
    · intro d hd hne
      unfold finish
      rw [hs]
      simp only [Bool.false_eq_true, if_false]
      rw [settleResolve_closeCount, settleResolve_decoder]
      constructor
      · unfold closeIfOpen
        cases d with
        | closed => exact absurd rfl hne
        | unconfigured => simp [hd]
        | configured => simp [hd]
      · exact closeIfOpen_decoder_closed _ d hd
    · intro hd
      unfold finish
      rw [hs]
      simp only [Bool.false_eq_true, if_false]
      rw [settleResolve_closeCount]
      unfold closeIfOpen
      rw [hd]
    · intro hd
      unfold finish
      rw [hs]
      simp only [Bool.false_eq_true, if_false]
      rw [settleResolve_closeCount]
      unfold closeIfOpen
      rw [hd]

theorem C7_witness :
    finish [] (finish [] stC7) = finish [] stC7 ∧
    (finish [] stC7).closeCount = stC7.closeCount + 1 ∧
    (finish [] stC7).decoder = some DecoderState.closed := by
  have h := C7_finish_idempotent [] stC7
  have h2 := (h.2.2 rfl).1 DecoderState.configured rfl (by decide)
  exact ⟨h.1, h2.1, h2.2⟩

/-- Claim C1: the finalized list handed to resolve has exactly one entry
per input target, in order; entry i is input event i with its screenshot
field set to the recorded result for its timestamp key, which is either a
recorded image string or none (undefined in the source).  No target is
dropped. -/
theorem C1_no_target_dropped (events : List VideoEvent) (s : OrchState)
    (hfin : s.isFinished = false) (hout : s.outcome = Outcome.pending) :
    ∃ out, (finish events s).outcome = Outcome.resolved out ∧
      out.length = events.length ∧
      ∀ i, i < events.length →
        out[i]? = (events[i]?).map fun e =>
          { e with screenshot := lookupResult s.results e.timestamp_seconds } := by
  refine ⟨finalizedEvents events s.results, ?_, ?_, ?_⟩
  · unfold finish
    rw [hfin]
    simp only [Bool.false_eq_true, if_false]
    unfold settleResolve
    rw [closeIfOpen_outcome]
    simp only [hout]
  · unfold finalizedEvents
    exact List.length_map _ _
  · intro i _
    unfold finalizedEvents
    rw [List.getElem?_map]

theorem C1_witness :
    ∃ out, (finish evC1 stC1).outcome = Outcome.resolved out ∧
      out.length = evC1.length ∧
      ∀ i, i < evC1.length →
        out[i]? = (evC1[i]?).map fun e =>
          { e with screenshot := lookupResult stC1.results e.timestamp_seconds } :=
  C1_no_target_dropped evC1 stC1 rfl rfl

theorem step_appendChunk_fields (events : List VideoEvent) (s : OrchState)
    (isLast : Bool) :
    step events s (Event.appendChunk isLast) =
      { s with fileFullyRead := s.fileFullyRead || isLast } := rfl

theorem runTrace_chunks (events : List VideoEvent) (s : OrchState)
    (chunks : List Bool) :
    runTrace events s (chunks.map Event.appendChunk) =
      { s with fileFullyRead := chunks.foldl (fun a b => a || b) s.fileFullyRead } := by
  induction chunks generalizing s with
  | nil => rfl
  | cons c cs ih =>
      have hstep : runTrace events s ((c :: cs).map Event.appendChunk) =
          runTrace events (step events s (Event.appendChunk c))
            (cs.map Event.appendChunk) := rfl
      rw [hstep, ih]
      rfl

theorem finish_pending_outcome (events : List VideoEvent) (s : OrchState)
    (hfin : s.isFinished = false) (hout : s.outcome = Outcome.pending) :
    (finish events s).outcome =
      Outcome.resolved (finalizedEvents events s.results) := by
  unfold finish
  rw [hfin]
  simp only [Bool.false_eq_true, if_false]
  unfold settleResolve
  rw [closeIfOpen_outcome]
  simp only [hout]

/-- Claim C8: on an input whose parse never reaches a ready event and
never signals a parse error, the only transitions are chunk appends
followed by the 30 s safety timeout; the extraction then finalizes: the
promise resolves (it is not rejected and does not hang) with every target
explicitly absent, and the deadline constant is 30000 ms. -/
theorem C8_timeout_finalizes (events : List VideoEvent) (chunks : List Bool) :
    (runTrace events (initialState events)
        (chunks.map Event.appendChunk ++ [Event.timeout])).isFinished = true ∧
    (runTrace events (initialState events)
        (chunks.map Event.appendChunk ++ [Event.timeout])).outcome =
      Outcome.resolved (events.map fun e => { e with screenshot := none }) ∧
    timeoutMs = 30000 := by
  have hrun : runTrace events (initialState events)
      (chunks.map Event.appendChunk ++ [Event.timeout]) =
      step events (runTrace events (initialState events)
        (chunks.map Event.appendChunk)) Event.timeout := by
    unfold runTrace
    rw [List.foldl_append]
    rfl
  have hm := runTrace_chunks events (initialState events) chunks
  have hfin : (runTrace events (initialState events)
      (chunks.map Event.appendChunk)).isFinished = false := by rw [hm]; rfl
  have hout : (runTrace events (initialState events)
      (chunks.map Event.appendChunk)).outcome = Outcome.pending := by rw [hm]; rfl
  have hres : (runTrace events (initialState events)
      (chunks.map Event.appendChunk)).results = [] := by rw [hm]; rfl
  have hstep : step events (runTrace events (initialState events)
      (chunks.map Event.appendChunk)) Event.timeout =
      finish events (runTrace events (initialState events)
        (chunks.map Event.appendChunk)) := by
    rw [step, hfin]
    simp
  rw [hrun, hstep]
  refine ⟨finish_isFinished _ _, ?_, rfl⟩
  rw [finish_pending_outcome _ _ hfin hout, hres]
  have hl : ∀ k, lookupResult [] k = none := fun _ => rfl
  simp only [finalizedEvents, hl]

theorem step_preserves_finished (events : List VideoEvent) (s : OrchState)
    (e : Event) (h : s.isFinished = true) :
    (step events s e).isFinished = true ∧ (step events s e).outcome = s.outcome := by
  cases e with
  | appendChunk isLast => exact ⟨h, rfl⟩
  | timeout => rw [step, h]; exact ⟨h, rfl⟩
  | frameOutput tsUs frameId => rw [step, h]; simp [h]
  | encodeDone i =>
      rw [step]
      cases hp : s.pendingEncodes[i]? with
      | none => exact ⟨h, rfl⟩
      | some job =>
          cases job with
          | mk key img =>
              simp only []
              split
              · split
                · exact ⟨finish_isFinished _ _, by simp [finish, h]⟩
                · exact ⟨h, rfl⟩
              · exact ⟨h, rfl⟩

/-- Claim C10 as stated is false on the code: after finalization the
internal results object can still change.  The onloadend completion of an
image encode that was started before finish has no isFinished guard; when
its key is still unrecorded it writes a new entry into results after the
extraction has finished.  Concretely: a finished state with one pending
encode for key 1 and no recorded result gains the entry (1, img) from
that late completion. -/
theorem C10_counterexample :
    stC10.isFinished = true ∧
    (step [] stC10 (Event.encodeDone 0)).results ≠ stC10.results := by
  constructor
  · rfl
  · intro h
    exact absurd (congrArg List.length h) (by decide)

/-- Claim C10, amended: after finalization the caller-observable outcome
(the resolved finalized mapping) never changes over any further trace;
every decoder-output frame delivered after finish is discarded without
starting any materialization; and a late image-encode completion never
overwrites an already-recorded result for its target key (it can only add
an entry for a key that was still absent, which the resolved snapshot
does not observe). -/
theorem C10_finalized_outcome_immutable (events : List VideoEvent)
    (s : OrchState) (h : s.isFinished = true) :
    (∀ trace, (runTrace events s trace).outcome = s.outcome) ∧
    (∀ tsUs frameId, step events s (Event.frameOutput tsUs frameId) = s) ∧
    (∀ i key img, s.pendingEncodes[i]? = some (key, img) →
      (lookupResult s.results key).isSome →
      (step events s (Event.encodeDone i)).results = s.results) := by
  refine ⟨?_, ?_, ?_⟩
  · intro trace
    induction trace generalizing s with
    | nil => rfl
    | cons e rest ih =>
        have hp := step_preserves_finished events s e h
        unfold runTrace
        rw [List.foldl_cons]
        have := ih (step events s e) hp.1
        unfold runTrace at this
        rw [this, hp.2]
  · intro tsUs frameId
    rw [step, h]
    simp
  · intro i key img hp hsome
    rw [step, hp]
    simp only []
    split
    · next hcond =>
        rw [Option.isNone_iff_eq_none] at hcond
        rw [Option.isSome_iff_exists] at hsome
        obtain ⟨v, hv⟩ := hsome
        rw [hv] at hcond
        exact absurd hcond (by simp)
    · rfl

theorem C10_witness :
    (runTrace [] stC10w [Event.frameOutput 1000000 7, Event.encodeDone 0]).outcome =
      stC10w.outcome ∧
    step [] stC10w (Event.frameOutput 1000000 7) = stC10w ∧
    (step [] stC10w (Event.encodeDone 0)).results = stC10w.results := by
  have h := C10_finalized_outcome_immutable [] stC10w rfl
  exact ⟨h.1 _, h.2.1 1000000 7, h.2.2 0 1 "late" rfl (by decide)⟩

theorem finish_results (events : List VideoEvent) (s : OrchState) :
    (finish events s).results = s.results := by
  unfold finish
  split
  · rfl
  · rw [settleResolve_results, closeIfOpen_results]

theorem lookupResult_cons_self (key : Rat) (img : String)
    (rest : List (Rat × String)) :
    lookupResult ((key, img) :: rest) key = some img := by
  unfold lookupResult
  rw [List.find?_cons]
  simp

/-- Claim C6: a decoded frame starts a materialization for a target
exactly when the absolute difference between the frame time converted
from microseconds to seconds and the requested timestamp is strictly
below 100 ms and the target key has no recorded result yet, and the
produced image is the rendering of that very frame; hence two distinct
targets both within tolerance of one frame both receive the image
rendered from that same frame, and completing a started encode records
exactly that image for the key. -/
theorem C6_tolerance_matching (events : List VideoEvent)
    (results : List (Rat × String)) (tsUs : Rat) (frameId : Nat) :
    (∀ key img, (key, img) ∈ spawnJobs events results true tsUs frameId →
        |tsUs / 1000000 - key| < 1 / 10 ∧ lookupResult results key = none ∧
        img = renderFrame frameId) ∧
    (∀ e ∈ events, |tsUs / 1000000 - e.timestamp_seconds| < 1 / 10 →
        lookupResult results e.timestamp_seconds = none →
        (e.timestamp_seconds, renderFrame frameId) ∈
          spawnJobs events results true tsUs frameId) ∧
    (∀ evs s i key img, s.pendingEncodes[i]? = some (key, img) →
        lookupResult s.results key = none →
        lookupResult (step evs s (Event.encodeDone i)).results key = some img) := by
  refine ⟨?_, ?_, ?_⟩
  · intro key img hmem
    rw [spawnJobs, List.mem_filterMap] at hmem
    obtain ⟨e, _he, hsome⟩ := hmem
    by_cases h1 : |tsUs / 1000000 - e.timestamp_seconds| < 1 / 10
    · rw [if_pos h1] at hsome
      by_cases h2 :
          ((lookupResult results e.timestamp_seconds).isNone && true) = true
      · rw [if_pos h2] at hsome
        simp only [Option.some.injEq, Prod.mk.injEq] at hsome
        obtain ⟨hk, hi⟩ := hsome
        subst hk
        subst hi
        rw [Bool.and_true, Option.isNone_iff_eq_none] at h2
        exact ⟨h1, h2, rfl⟩
      · rw [if_neg h2] at hsome
        exact absurd hsome (by simp)
    · rw [if_neg h1] at hsome
      exact absurd hsome (by simp)
  · intro e he h1 h2
    rw [spawnJobs, List.mem_filterMap]
    refine ⟨e, he, ?_⟩
    rw [if_pos h1, h2]
    rfl
  · intro evs s i key img hp hnone
    rw [step, hp]
    simp only [hnone, Option.isNone_none, Bool.true_eq, if_pos]
    split
    · rw [finish_results]
      exact lookupResult_cons_self key img _
    · exact lookupResult_cons_self key img _

theorem C6_witness :
    ((1 : Rat), renderFrame 5) ∈ spawnJobs evC6 [] true 1000000 5 ∧
    ((102 / 100 : Rat), renderFrame 5) ∈ spawnJobs evC6 [] true 1000000 5 ∧
    lookupResult (step [] stC6 (Event.encodeDone 0)).results 1 =
      some (renderFrame 5) := by
  have h := C6_tolerance_matching evC6 [] 1000000 5
  refine ⟨?_, ?_, ?_⟩
  · exact h.2.1 ev6a (by with_unfolding_all decide)
      (by with_unfolding_all decide) rfl
  · exact h.2.1 ev6b (by with_unfolding_all decide)
      (by with_unfolding_all decide) rfl
  · exact h.2.2 [] stC6 0 1 (renderFrame 5) rfl rfl

theorem feedSamples_noThrow (samples : List Sample) (l : List Nat) :
    (feedSamples samples (fun _ => false) true l).2 = false := by
  induction l with
  | nil => rfl
  | cons i rest ih => simp [feedSamples, ih]

theorem runRanges_cons_ok (samples : List Sample) (throwAt : Nat → Bool)
    (r : GOPRange) (rest : List GOPRange) (lastProcessedIndex : Int)
    (hs : (samples.getD r.start dfltSample).is_sync = true)
    (hne : (feedSamples samples throwAt true
      (List.range' r.start (r.endIdx + 1 - r.start))).2 = false) :
    runRanges samples throwAt true (r :: rest) lastProcessedIndex =
      { range := r, skipped := false,
        needsFlush := needsFlushFor r.start lastProcessedIndex,
        preFlush := needsFlushFor r.start lastProcessedIndex && true,
        fed := (feedSamples samples throwAt true
          (List.range' r.start (r.endIdx + 1 - r.start))).1,
        errored := false,
        postFlush := (rest.isEmpty || nextRangeHasGapFor r.endIdx rest) && true,
        recoverFlush := false } ::
        runRanges samples throwAt true rest (r.endIdx : Int) := by
  rw [runRanges]
  rw [if_neg (by rw [hs]; simp)]
  simp only [hne, Bool.false_eq_true, if_false]

theorem runRanges_cons_err (samples : List Sample) (throwAt : Nat → Bool)
    (r : GOPRange) (rest : List GOPRange) (lastProcessedIndex : Int)
    (hs : (samples.getD r.start dfltSample).is_sync = true)
    (herr : (feedSamples samples throwAt true
      (List.range' r.start (r.endIdx + 1 - r.start))).2 = true) :
    runRanges samples throwAt true (r :: rest) lastProcessedIndex =
      { range := r, skipped := false,
        needsFlush := needsFlushFor r.start lastProcessedIndex,
        preFlush := needsFlushFor r.start lastProcessedIndex && true,
        fed := (feedSamples samples throwAt true
          (List.range' r.start (r.endIdx + 1 - r.start))).1,
        errored := true, postFlush := false, recoverFlush := true } ::
        runRanges samples throwAt true rest (-1) := by
  rw [runRanges]
  rw [if_neg (by rw [hs]; simp)]
  simp only [herr, if_true]

/-- Claim C2, amended: in an error-free run with a configured decoder,
the very first processed range always has needsFlush (and the flush is
issued); between two consecutively scheduled ranges a flush is issued
exactly when the second starts strictly past the first ranges end + 1 (a
gap: closing flush after the first and pre-decode flush before the
second); a continuation (start = end + 1) and equally an overlap (start
at or before the previous end) are fed with no intervening flush. -/
theorem C2_flush_policy (samples : List Sample) (r1 r2 : GOPRange)
    (rest : List GOPRange)
    (h1 : (samples.getD r1.start dfltSample).is_sync = true)
    (h2 : (samples.getD r2.start dfltSample).is_sync = true) :
    ((runRanges samples (fun _ => false) true (r1 :: r2 :: rest)
        (-1)).getD 0 dfltStep).needsFlush = true ∧
    (r2.start = r1.endIdx + 1 →
      ((runRanges samples (fun _ => false) true (r1 :: r2 :: rest)
          (-1)).getD 0 dfltStep).postFlush = false ∧
      ((runRanges samples (fun _ => false) true (r1 :: r2 :: rest)
          (-1)).getD 1 dfltStep).needsFlush = false ∧
      ((runRanges samples (fun _ => false) true (r1 :: r2 :: rest)
          (-1)).getD 1 dfltStep).preFlush = false) ∧
    (r1.endIdx + 1 < r2.start →
      ((runRanges samples (fun _ => false) true (r1 :: r2 :: rest)
          (-1)).getD 0 dfltStep).postFlush = true ∧
      ((runRanges samples (fun _ => false) true (r1 :: r2 :: rest)
          (-1)).getD 1 dfltStep).needsFlush = true ∧
      ((runRanges samples (fun _ => false) true (r1 :: r2 :: rest)
          (-1)).getD 1 dfltStep).preFlush = true) ∧
    (r2.start ≤ r1.endIdx →
      ((runRanges samples (fun _ => false) true (r1 :: r2 :: rest)
          (-1)).getD 0 dfltStep).postFlush = false ∧
      ((runRanges samples (fun _ => false) true (r1 :: r2 :: rest)
          (-1)).getD 1 dfltStep).needsFlush = false ∧
      ((runRanges samples (fun _ => false) true (r1 :: r2 :: rest)
          (-1)).getD 1 dfltStep).preFlush = false) := by
  rw [runRanges_cons_ok samples _ r1 _ _ h1 (feedSamples_noThrow _ _),
    runRanges_cons_ok samples _ r2 _ _ h2 (feedSamples_noThrow _ _)]
  simp only [List.getD_cons_zero, List.getD_cons_succ]
  refine ⟨?_, ?_, ?_, ?_⟩
  · simp [needsFlushFor]
  · intro hcont
    have hc : ((r2.start : Int) > (r1.endIdx : Int) + 1) = False := by
      simp only [eq_iff_iff, iff_false]
      omega
    have hne : ((r1.endIdx : Int) = -1) = False := by
      simp only [eq_iff_iff, iff_false]
      omega
    refine ⟨?_, ?_, ?_⟩ <;>
      simp [needsFlushFor, nextRangeHasGapFor, hc, hne]
  · intro hgap
    have hc : ((r2.start : Int) > (r1.endIdx : Int) + 1) = True := by
      simp only [eq_iff_iff, iff_true]
      omega
    refine ⟨?_, ?_, ?_⟩ <;>
      simp [needsFlushFor, nextRangeHasGapFor, hc]
  · intro hover
    have hc : ((r2.start : Int) > (r1.endIdx : Int) + 1) = False := by
      simp only [eq_iff_iff, iff_false]
      omega
    have hne : ((r1.endIdx : Int) = -1) = False := by
      simp only [eq_iff_iff, iff_false]
      omega
    refine ⟨?_, ?_, ?_⟩ <;>
      simp [needsFlushFor, nextRangeHasGapFor, hc, hne]

/-- Claim C2 as stated is false on the code: an overlapping adjacency is
not a continuation (range2.start is not range1.end + 1), yet the
scheduler issues no flush between the two ranges, because needsFlush only
fires on lastProcessedIndex === -1 or range.start > lastProcessedIndex +
1 and an overlap satisfies neither.  Two planned ranges in the same GOP
(start 0 end 2, then start 0 end 3) exhibit this. -/
theorem C2_counterexample :
    ((rangesC2.getD 1 dfltRange).start ≠
      (rangesC2.getD 0 dfltRange).endIdx + 1) ∧
    ((runRanges samplesC2 (fun _ => false) true rangesC2
        (-1)).getD 0 dfltStep).postFlush = false ∧
    ((runRanges samplesC2 (fun _ => false) true rangesC2
        (-1)).getD 1 dfltStep).needsFlush = false ∧
    ((runRanges samplesC2 (fun _ => false) true rangesC2
        (-1)).getD 1 dfltStep).preFlush = false := by
  with_unfolding_all decide

theorem C2_witness :
    ((runRanges samplesC2w (fun _ => false) true rangesC2w
        (-1)).getD 0 dfltStep).needsFlush = true ∧
    ((runRanges samplesC2w (fun _ => false) true rangesC2w
        (-1)).getD 0 dfltStep).postFlush = false ∧
    ((runRanges samplesC2w (fun _ => false) true rangesC2w
        (-1)).getD 1 dfltStep).needsFlush = false ∧
    ((runRanges samplesC2w (fun _ => false) true rangesC2w
        (-1)).getD 1 dfltStep).preFlush = false := by
  have h := C2_flush_policy samplesC2w
    { start := 0, endIdx := 1, eventIndex := 0 }
    { start := 2, endIdx := 3, eventIndex := 1 } []
    (by with_unfolding_all decide) (by with_unfolding_all decide)
  have hcont := h.2.1 rfl
  exact ⟨h.1, hcont.1, hcont.2.1, hcont.2.2⟩

theorem runRanges_length (samples : List Sample) (throwAt : Nat → Bool) :
    ∀ (ranges : List GOPRange) (lastProcessedIndex : Int),
      (runRanges samples throwAt true ranges lastProcessedIndex).length =
        ranges.length := by
  intro ranges
  induction ranges with
  | nil => intro lst; rfl
  | cons r rest ih =>
      intro lst
      by_cases hsync : (samples.getD r.start dfltSample).is_sync = true
      · by_cases herr : (feedSamples samples throwAt true
            (List.range' r.start (r.endIdx + 1 - r.start))).2 = true
        · rw [runRanges_cons_err samples throwAt r rest lst hsync herr]
          simp [ih]
        · rw [runRanges_cons_ok samples throwAt r rest lst hsync
            (by rwa [Bool.not_eq_true] at herr)]
          simp [ih]
      · rw [runRanges, if_pos (by rwa [Bool.not_eq_true] at hsync)]
        simp [ih]

theorem runRanges_fed_independent (samples : List Sample)
    (throwAt : Nat → Bool) :
    ∀ (ranges : List GOPRange) (l1 l2 : Int),
      (runRanges samples throwAt true ranges l1).map RangeStep.fed =
        (runRanges samples throwAt true ranges l2).map RangeStep.fed := by
  intro ranges
  induction ranges with
  | nil => intro l1 l2; rfl
  | cons r rest ih =>
      intro l1 l2
      by_cases hsync : (samples.getD r.start dfltSample).is_sync = true
      · by_cases herr : (feedSamples samples throwAt true
            (List.range' r.start (r.endIdx + 1 - r.start))).2 = true
        · rw [runRanges_cons_err samples throwAt r rest l1 hsync herr,
            runRanges_cons_err samples throwAt r rest l2 hsync herr]
          rfl
        · rw [runRanges_cons_ok samples throwAt r rest l1 hsync
            (by rwa [Bool.not_eq_true] at herr),
            runRanges_cons_ok samples throwAt r rest l2 hsync
            (by rwa [Bool.not_eq_true] at herr)]
          rfl
      · rw [runRanges, if_pos (by rwa [Bool.not_eq_true] at hsync)]
        rw [runRanges, if_pos (by rwa [Bool.not_eq_true] at hsync)]
        simp only [List.map_cons]
        rw [ih l1 l2]

/-- Claim C9: a decode throw inside one GOP range never aborts the loop:
every planned range still yields a processing step (the loop length is
preserved for any fault pattern); the erroring step runs the catch-block
recovery flush; the next processed range is forced discontinuous
(lastProcessedIndex is reset to -1, so its needsFlush holds and its flush
is issued); and the samples fed for the ranges after the failed one do
not depend on the inherited lastProcessedIndex, so other targets decode
work is unaffected. -/
theorem C9_decode_error_recovery (samples : List Sample)
    (throwAt : Nat → Bool) (r1 r2 : GOPRange) (rest : List GOPRange)
    (lastProcessedIndex : Int)
    (h1 : (samples.getD r1.start dfltSample).is_sync = true)
    (h2 : (samples.getD r2.start dfltSample).is_sync = true)
    (herr : (feedSamples samples throwAt true
      (List.range' r1.start (r1.endIdx + 1 - r1.start))).2 = true) :
    (∀ rs lst, (runRanges samples throwAt true rs lst).length = rs.length) ∧
    ((runRanges samples throwAt true (r1 :: r2 :: rest)
        lastProcessedIndex).getD 0 dfltStep).errored = true ∧
    ((runRanges samples throwAt true (r1 :: r2 :: rest)
        lastProcessedIndex).getD 0 dfltStep).recoverFlush = true ∧
    ((runRanges samples throwAt true (r1 :: r2 :: rest)
        lastProcessedIndex).getD 1 dfltStep).needsFlush = true ∧
    ((runRanges samples throwAt true (r1 :: r2 :: rest)
        lastProcessedIndex).getD 1 dfltStep).preFlush = true ∧
    (∀ rs l1 l2, (runRanges samples throwAt true rs l1).map RangeStep.fed =
        (runRanges samples throwAt true rs l2).map RangeStep.fed) := by
  have hstep1 := runRanges_cons_err samples throwAt r1 (r2 :: rest)
    lastProcessedIndex h1 herr
  refine ⟨runRanges_length samples throwAt, ?_, ?_, ?_, ?_,
    runRanges_fed_independent samples throwAt⟩
  · rw [hstep1]; rfl
  · rw [hstep1]; rfl
  · rw [hstep1]
    rw [List.getD_cons_succ]
    by_cases herr2 : (feedSamples samples throwAt true
        (List.range' r2.start (r2.endIdx + 1 - r2.start))).2 = true
    · rw [runRanges_cons_err samples throwAt r2 rest (-1) h2 herr2]
      simp [needsFlushFor]
    · rw [runRanges_cons_ok samples throwAt r2 rest (-1) h2
        (by rwa [Bool.not_eq_true] at herr2)]
      simp [needsFlushFor]
  · rw [hstep1]
    rw [List.getD_cons_succ]
    by_cases herr2 : (feedSamples samples throwAt true
        (List.range' r2.start (r2.endIdx + 1 - r2.start))).2 = true
    · rw [runRanges_cons_err samples throwAt r2 rest (-1) h2 herr2]
      simp [needsFlushFor]
    · rw [runRanges_cons_ok samples throwAt r2 rest (-1) h2
        (by rwa [Bool.not_eq_true] at herr2)]
      simp [needsFlushFor]

theorem C9_witness :
    (runRanges samplesC9 throwAtC9 true rangesC9 (-1)).length =
      rangesC9.length ∧
    ((runRanges samplesC9 throwAtC9 true rangesC9
        (-1)).getD 0 dfltStep).errored = true ∧
    ((runRanges samplesC9 throwAtC9 true rangesC9
        (-1)).getD 0 dfltStep).recoverFlush = true ∧
    ((runRanges samplesC9 throwAtC9 true rangesC9
        (-1)).getD 1 dfltStep).needsFlush = true ∧
    ((runRanges samplesC9 throwAtC9 true rangesC9
        (-1)).getD 1 dfltStep).preFlush = true := by
  have h := C9_decode_error_recovery samplesC9 throwAtC9
    { start := 0, endIdx := 2, eventIndex := 0 }
    { start := 3, endIdx := 4, eventIndex := 1 } [] (-1)
    (by with_unfolding_all decide) (by with_unfolding_all decide)
    (by with_unfolding_all decide)
  exact ⟨h.1 rangesC9 (-1), h.2.1, h.2.2.1, h.2.2.2.1, h.2.2.2.2.1⟩

theorem findNearestGo_spec (target : Rat) (samples : List Sample) :
    ∀ (l : List Sample) (i : Nat) (best : Option (Nat × Rat)),
      samples.drop i = l →
      (best = none → i = 0) →
      (∀ bi bd, best = some (bi, bd) →
        bi < i ∧ bi < samples.length ∧
        bd = |(samples.getD bi dfltSample).cts - target| ∧
        (∀ j, j < i → bd ≤ |(samples.getD j dfltSample).cts - target|) ∧
        (∀ j, j < bi → bd < |(samples.getD j dfltSample).cts - target|)) →
      ∀ n d, findNearestGo target l i best = some (n, d) →
        n < samples.length ∧
        d = |(samples.getD n dfltSample).cts - target| ∧
        (∀ j, j < samples.length →
          d ≤ |(samples.getD j dfltSample).cts - target|) ∧
        (∀ j, j < n → d < |(samples.getD j dfltSample).cts - target|) := by
  intro l
  induction l with
  | nil =>
      intro i best hdrop _hnone hsome n d hrun
      rw [findNearestGo] at hrun
      have hlen : samples.length ≤ i := List.drop_eq_nil_iff.mp hdrop
      obtain ⟨_hbi, hbl, hbd, hall, hfirst⟩ := hsome n d hrun
      exact ⟨hbl, hbd, fun j hj => hall j (lt_of_lt_of_le hj hlen), hfirst⟩
  | cons s rest ih =>
      intro i best hdrop hnone hsome n d hrun
      have hget : samples[i]? = some s := by
        have h0 := List.getElem?_drop samples i 0
        rw [hdrop] at h0
        simp only [List.getElem?_cons_zero, Nat.add_zero] at h0
        exact h0.symm
      have hi : i < samples.length := by
        by_contra hcon
        push_neg at hcon
        rw [List.getElem?_eq_none hcon] at hget
        exact absurd hget (by simp)
      have hgd : samples.getD i dfltSample = s := by
        rw [List.getD_eq_getElem?_getD, hget]
        rfl
      have hdrop1 : samples.drop (i + 1) = rest := by
        have hdd := List.drop_drop 1 i samples
        rw [hdrop] at hdd
        simpa using hdd.symm
      cases best with
      | none =>
          have hi0 : i = 0 := hnone rfl
          subst hi0
          refine ih 1 (some (0, |s.cts - target|)) hdrop1
            (by intro h; simp at h) ?_ n d hrun
          intro bi bd hb
          rw [Option.some_inj] at hb
          obtain ⟨hbi, hbd⟩ := Prod.mk.injEq .. ▸ hb.symm
          subst hbi
          subst hbd
          refine ⟨Nat.zero_lt_one, hi, by rw [hgd], ?_, ?_⟩
          · intro j hj
            have hj0 : j = 0 := by omega
            subst hj0
            rw [hgd]
          · intro j hj
            exact absurd hj (Nat.not_lt_zero j)
      | some p =>
          obtain ⟨bi, bd⟩ := p
          obtain ⟨hbi, hbl, hbd, hall, hfirst⟩ := hsome bi bd rfl
          rw [findNearestGo] at hrun
          by_cases hlt : |s.cts - target| < bd
          · rw [if_pos hlt] at hrun
            refine ih (i + 1) (some (i, |s.cts - target|)) hdrop1
              (by intro h; simp at h) ?_ n d hrun
            intro bi' bd' hb
            rw [Option.some_inj] at hb
            obtain ⟨rfl, rfl⟩ := Prod.mk.injEq .. ▸ hb
            refine ⟨Nat.lt_succ_self i, hi, by rw [hgd], ?_, ?_⟩
            · intro j hj
              rcases Nat.lt_succ_iff_lt_or_eq.mp hj with hj' | hj'
              · exact le_trans (le_of_lt hlt) (hall j hj')
              · subst hj'
                rw [hgd]
            · intro j hj
              exact lt_of_lt_of_le hlt (hall j hj)
          · rw [if_neg hlt] at hrun
            have hge : bd ≤ |s.cts - target| := not_lt.mp hlt
            refine ih (i + 1) (some (bi, bd)) hdrop1
              (by intro h; simp at h) ?_ n d hrun
            intro bi' bd' hb
            rw [Option.some_inj] at hb
            obtain ⟨rfl, rfl⟩ := Prod.mk.injEq .. ▸ hb
            refine ⟨Nat.lt_succ_of_lt hbi, hbl, hbd, ?_, hfirst⟩
            intro j hj
            rcases Nat.lt_succ_iff_lt_or_eq.mp hj with hj' | hj'
            · exact hall j hj'
            · subst hj'
              rw [hgd]
              exact hge

theorem findNearest_spec (samples : List Sample) (target : Rat) (n : Nat)
    (h : findNearest samples target = some n) :
    n < samples.length ∧
    (∀ j, j < samples.length →
      |(samples.getD n dfltSample).cts - target| ≤
        |(samples.getD j dfltSample).cts - target|) ∧
    (∀ j, j < n →
      |(samples.getD n dfltSample).cts - target| <
        |(samples.getD j dfltSample).cts - target|) := by
  unfold findNearest at h
  cases hgo : findNearestGo target samples 0 none with
  | none =>
      rw [hgo] at h
      exact absurd h (by simp)
  | some p =>
      obtain ⟨n', d⟩ := p
      rw [hgo] at h
      simp only [Option.map_some', Option.some_inj] at h
      subst h
      obtain ⟨h1, h2, h3, h4⟩ := findNearestGo_spec target samples samples 0
        none (by simp) (fun _ => rfl)
        (by intro bi bd hb; exact absurd hb (by simp)) n' d hgo
      subst h2
      exact ⟨h1, h3, h4⟩

theorem findKeyIndex_spec (samples : List Sample) :
    ∀ n k, findKeyIndex samples n = some k →
      k ≤ n ∧ (samples.getD k dfltSample).is_sync = true ∧
      ∀ j, k < j → j ≤ n → (samples.getD j dfltSample).is_sync = false := by
  intro n
  induction n with
  | zero =>
      intro k h
      rw [findKeyIndex] at h
      split at h
      · next hs =>
          rw [Option.some_inj] at h
          subst h
          exact ⟨Nat.le_refl 0, hs, fun j hj hj' =>
            absurd (lt_of_lt_of_le hj hj') (lt_irrefl 0)⟩
      · exact absurd h (by simp)
  | succ m ih =>
      intro k h
      rw [findKeyIndex] at h
      split at h
      · next hs =>
          rw [Option.some_inj] at h
          subst h
          refine ⟨Nat.le_refl _, hs, ?_⟩
          intro j hj hj'
          omega
      · next hs =>
          obtain ⟨hk, hsync, hrest⟩ := ih k h
          refine ⟨Nat.le_succ_of_le hk, hsync, ?_⟩
          intro j hj hj'
          by_cases hjm : j ≤ m
          · exact hrest j hj hjm
          · have hje : j = m + 1 := by omega
            subst hje
            rwa [Bool.not_eq_true] at hs

theorem findKeyIndex_isNone (samples : List Sample) :
    ∀ n, (∀ j, j ≤ n → (samples.getD j dfltSample).is_sync = false) →
      findKeyIndex samples n = none := by
  intro n
  induction n with
  | zero =>
      intro h
      rw [findKeyIndex]
      rw [if_neg]
      rw [h 0 (Nat.le_refl 0)]
      simp
  | succ m ih =>
      intro h
      rw [findKeyIndex]
      rw [if_neg]
      · exact ih fun j hj => h j (Nat.le_succ_of_le hj)
      · rw [h (m + 1) (Nat.le_refl _)]
        simp

theorem planEvent_shape (samples : List Sample) (timescale : Rat)
    (eventIdx : Nat) (e : VideoEvent) (r : GOPRange)
    (h : planEvent samples timescale eventIdx e = some r) :
    ∃ n k, findNearest samples (e.timestamp_seconds * timescale) = some n ∧
      findKeyIndex samples n = some k ∧
      r = { start := k, endIdx := n, eventIndex := eventIdx } := by
  simp only [planEvent] at h
  split at h
  · exact absurd h (by simp)
  · next n hn =>
      split at h
      · exact absurd h (by simp)
      · next k hk =>
          rw [Option.some_inj] at h
          exact ⟨n, k, hn, hk, h.symm⟩

theorem mem_planGopRanges_iff (samples : List Sample) (timescale : Rat)
    (events : List VideoEvent) (r : GOPRange) :
    r ∈ planGopRanges samples timescale events ↔
      ∃ p ∈ events.enum, planEvent samples timescale p.1 p.2 = some r := by
  unfold planGopRanges
  rw [(List.perm_insertionSort _ _).mem_iff, List.mem_filterMap]

/-- Claim C3, amended: a target whose nearest sample has no sync sample
at or before it is unplannable: planning yields none for it without
throwing, and no GOPRange for its event index appears in the planned
list; at finalization it resolves to an explicitly absent screenshot
provided nothing recorded a result under its key.  The proviso is
necessary: a frame decoded for another target within the 100 ms
tolerance can record a result under the unplannable targets key, and
then the target resolves present (see the C3 counterexample). -/
theorem C3_unplannable_target (samples : List Sample) (timescale : Rat)
    (events : List VideoEvent) (eventIdx : Nat) (e : VideoEvent) (n : Nat)
    (hget : events[eventIdx]? = some e)
    (hn : findNearest samples (e.timestamp_seconds * timescale) = some n)
    (hns : ∀ j, j ≤ n → (samples.getD j dfltSample).is_sync = false) :
    planEvent samples timescale eventIdx e = none ∧
    (∀ r ∈ planGopRanges samples timescale events, r.eventIndex ≠ eventIdx) ∧
    (∀ results, lookupResult results e.timestamp_seconds = none →
      (finalizedEvents events results)[eventIdx]? =
        some { e with screenshot := none }) := by
  have hplanNone : planEvent samples timescale eventIdx e = none := by
    simp only [planEvent, hn, findKeyIndex_isNone samples n hns]
  refine ⟨hplanNone, ?_, ?_⟩
  · intro r hr heq
    rw [mem_planGopRanges_iff] at hr
    obtain ⟨⟨i, e'⟩, hp, hplan⟩ := hr
    obtain ⟨n', k', _, _, hshape⟩ := planEvent_shape _ _ _ _ _ hplan
    have hidx : r.eventIndex = i := by rw [hshape]
    rw [hidx] at heq
    subst heq
    rw [List.mem_enum_iff_getElem?] at hp
    simp only [] at hp
    rw [hget] at hp
    rw [Option.some_inj] at hp
    subst hp
    rw [hplanNone] at hplan
    exact absurd hplan (by simp)
  · intro results hlook
    unfold finalizedEvents
    rw [List.getElem?_map, hget]
    simp only [Option.map_some', Option.some_inj]
    rw [hlook]

theorem C3_witness :
    planEvent samplesC3 1000 0
      { timestamp_seconds := 1, title := "goal", description := "" } = none ∧
    (∀ r ∈ planGopRanges samplesC3 1000 evC3, r.eventIndex ≠ 0) ∧
    (∀ results, lookupResult results
        ({ timestamp_seconds := 1, title := "goal",
           description := "" } : VideoEvent).timestamp_seconds = none →
      (finalizedEvents evC3 results)[0]? =
        some { timestamp_seconds := 1, title := "goal", description := "",
               insights := none, screenshot := none }) := by
  have h := C3_unplannable_target samplesC3 1000 evC3 0
    { timestamp_seconds := 1, title := "goal", description := "" } 1
    rfl (by with_unfolding_all decide)
    (by
      intro j hj
      interval_cases j <;> with_unfolding_all decide)
  exact h

/-- Claim C3 as stated is false on the code: an unplannable target does
not always resolve to an absent result.  With samples at cts 0
(non-sync) and cts 100 (sync, timescale 1000) and targets at 0.04 s and
0.1 s, the 0.04 s target is unplannable (nearest sample 0, no preceding
sync sample, no GOPRange) — yet decoding the 0.1 s targets range emits
a frame at 0.1 s, and |0.1 - 0.04| = 0.06 < 0.1 matches the unplannable
target too, so its encode completion records an image and the extraction
resolves it present, not absent. -/
theorem C3_counterexample :
    planEvent samplesC3x 1000 0 ev3a = none ∧
    planGopRanges samplesC3x 1000 evC3x =
      [{ start := 1, endIdx := 1, eventIndex := 1 }] ∧
    (runTrace evC3x stC3x
        [Event.frameOutput 100000 9, Event.encodeDone 0,
         Event.encodeDone 0]).outcome =
      Outcome.resolved
        [{ ev3a with screenshot := some (renderFrame 9) },
         { ev3b with screenshot := some (renderFrame 9) }] := by
  with_unfolding_all decide

/-- Claim C4: the planner converts each target timestamp to
track-timescale units (timestamp_seconds * timescale), picks the sample
of minimum absolute cts distance with ties to the first in scan order
(every strictly earlier index has strictly larger distance), walks
backward to the nearest preceding sync sample for the range start (no
sync sample sits strictly between start and end), and the final range
list is sorted by ascending start index. -/
theorem C4_planner_correct (samples : List Sample) (timescale : Rat)
    (events : List VideoEvent) :
    (planGopRanges samples timescale events).Sorted
      (fun a b => a.start ≤ b.start) ∧
    ∀ r ∈ planGopRanges samples timescale events,
      ∃ e, events[r.eventIndex]? = some e ∧
        r.endIdx < samples.length ∧
        (∀ j, j < samples.length →
          |(samples.getD r.endIdx dfltSample).cts -
              e.timestamp_seconds * timescale| ≤
            |(samples.getD j dfltSample).cts -
              e.timestamp_seconds * timescale|) ∧
        (∀ j, j < r.endIdx →
          |(samples.getD r.endIdx dfltSample).cts -
              e.timestamp_seconds * timescale| <
            |(samples.getD j dfltSample).cts -
              e.timestamp_seconds * timescale|) ∧
        r.start ≤ r.endIdx ∧
        (samples.getD r.start dfltSample).is_sync = true ∧
        (∀ j, r.start < j → j ≤ r.endIdx →
          (samples.getD j dfltSample).is_sync = false) := by
  constructor
  · haveI : IsTotal GOPRange (fun a b => a.start ≤ b.start) :=
      ⟨fun a b => Nat.le_total a.start b.start⟩
    haveI : IsTrans GOPRange (fun a b => a.start ≤ b.start) :=
      ⟨fun _ _ _ hab hbc => le_trans hab hbc⟩
    exact List.sorted_insertionSort _ _
  · intro r hr
    rw [mem_planGopRanges_iff] at hr
    obtain ⟨⟨i, e⟩, hp, hplan⟩ := hr
    obtain ⟨n, k, hn, hk, hshape⟩ := planEvent_shape _ _ _ _ _ hplan
    rw [List.mem_enum_iff_getElem?] at hp
    simp only [] at hp
    obtain ⟨hnlt, hmin, hties⟩ := findNearest_spec samples _ n hn
    obtain ⟨hkn, hksync, hkfirst⟩ := findKeyIndex_spec samples n k hk
    subst hshape
    exact ⟨e, hp, hnlt, hmin, hties, hkn, hksync, hkfirst⟩

theorem C4_witness :
    (planGopRanges samplesC4 1000 evC4).Sorted
      (fun a b => a.start ≤ b.start) ∧
    (∃ e, evC4[rC4.eventIndex]? = some e ∧
      rC4.endIdx < samplesC4.length ∧
      (∀ j, j < samplesC4.length →
        |(samplesC4.getD rC4.endIdx dfltSample).cts -
            e.timestamp_seconds * 1000| ≤
          |(samplesC4.getD j dfltSample).cts -
            e.timestamp_seconds * 1000|) ∧
      (∀ j, j < rC4.endIdx →
        |(samplesC4.getD rC4.endIdx dfltSample).cts -
            e.timestamp_seconds * 1000| <
          |(samplesC4.getD j dfltSample).cts -
            e.timestamp_seconds * 1000|) ∧
      rC4.start ≤ rC4.endIdx ∧
      (samplesC4.getD rC4.start dfltSample).is_sync = true ∧
      (∀ j, rC4.start < j → j ≤ rC4.endIdx →
        (samplesC4.getD j dfltSample).is_sync = false)) := by
  have h := C4_planner_correct samplesC4 1000 evC4
  exact ⟨h.1, h.2 rC4 (by with_unfolding_all decide)⟩

/-- Claim C5: when the codec family mandates an out-of-band description
(codec id starting avc1, hvc1 or hev1) and the extractor returns absent,
the onReady guard rejects the whole extraction with a configuration error
before any decoder is created or fed; for any other codec family an
absent description passes the guard.  The extractor returns absent when
the first sample-description entry has no avcC or hvcC box and when the
serialized box strips to an empty record (8 header bytes or fewer). -/
theorem C5_description_required (codec : String) (track : Option FullTrack) :
    (toDesc track = none → requiresDescription codec = true →
      ∃ msg, descCheck codec track = Except.error msg) ∧
    (requiresDescription codec = false →
      descCheck codec track = Except.ok ()) ∧
    (∀ entry box, track = some { stsd := some { entries := [entry] } } →
      entry.avcC = some box → box.length ≤ 8 → toDesc track = none) ∧
    (∀ entry, track = some { stsd := some { entries := [entry] } } →
      entry.avcC = none → entry.hvcC = none → toDesc track = none) := by
  refine ⟨?_, ?_, ?_, ?_⟩
  · intro h1 h2
    refine ⟨"Failed to extract decoder description for codec " ++ codec, ?_⟩
    unfold descCheck
    rw [if_pos]
    rw [h1, h2]
    rfl
  · intro h
    unfold descCheck
    rw [if_neg]
    rw [h]
    simp
  · intro entry box htrack havc hlen
    subst htrack
    simp only [toDesc, List.getElem?_cons_zero, havc]
    rw [if_pos]
    rw [List.length_drop]
    omega
  · intro entry htrack havc hhvc
    subst htrack
    simp only [toDesc, List.getElem?_cons_zero, havc, hhvc]

theorem C5_witness :
    (∃ msg, descCheck "avc1.640028" trackC5 = Except.error msg) ∧
    descCheck "vp09.00.10.08" trackC5 = Except.ok () ∧
    toDesc trackC5 = none := by
  have h := C5_description_required "avc1.640028" trackC5
  have hvp := C5_description_required "vp09.00.10.08" trackC5
  have hnone : toDesc trackC5 = none :=
    h.2.2.1 { avcC := some [0, 0, 0, 8, 97, 118, 99, 67], hvcC := none }
      [0, 0, 0, 8, 97, 118, 99, 67] rfl rfl (by decide)
  refine ⟨h.1 hnone (by with_unfolding_all decide), ?_, hnone⟩
  exact hvp.2.1 (by with_unfolding_all decide)

end Glimpse
